import Mathlib

/-!
Verification of the minion_banana_brawl core against its specification.

The development shallowly embeds the three core components:
* `context_engine.py` — AST indexing, dependency DAG, context hydration,
  change detection and selective test selection;
* `sandbox.py`      — the sandbox pool lifecycle (acquire / release / replenish);
* `orchestrator.py` — the bounded-retry task state machine `MinionOrchestrator.run`.

Python dicts are modelled as insertion-ordered association lists, Python sets
as duplicate-free lists in insertion order (a deterministic refinement of
CPython's unspecified set iteration order; none of the proved properties
depend on iteration order of sets).  File contents are lists of bytes;
`hashlib.sha256(...).hexdigest()[:12]` is an external library call and is
modelled as an arbitrary function parameter `h : List Nat → String` — every
theorem below holds for every choice of `h`.
-/

namespace Minion

/-! ### Association-list dictionaries and insertion-ordered sets -/

/-- Python `dict.get(k)` on an insertion-ordered association list. -/
def dictGet {α : Type} (d : List (String × α)) (k : String) : Option α :=
  match d with
  | [] => none
  | (k2, v) :: t => if k2 = k then some v else dictGet t k

/-- Python `dict[k] = v`: upsert preserving the position of an existing key
(CPython dicts keep the original insertion position on update). -/
def dictInsert {α : Type} (k : String) (v : α) : List (String × α) → List (String × α)
  | [] => [(k, v)]
  | (k2, v2) :: t => if k2 = k then (k2, v) :: t else (k2, v2) :: dictInsert k v t

/-- Python `set.add(x)`: append if absent. -/
def setAdd (x : String) (s : List String) : List String :=
  if x ∈ s then s else s ++ [x]

/-! ### String helpers mirroring the Python string operations used -/

/-- Python `str.replace(a, b)` for single characters. -/
def replaceChar (a b : Char) (s : String) : String :=
  String.mk (s.data.map (fun c => if c = a then b else c))

/-- Python `str.rstrip(chars)`: strip from the right every trailing character
that belongs to the character set (NOT suffix removal). -/
def pyRstrip (s : String) (cs : List Char) : String :=
  String.mk ((s.data.reverse.dropWhile (fun c => cs.contains c)).reverse)

/-- Module id derivation `filepath.replace("/", ".").replace("\\", ".").rstrip(".py")` — the
id derivation used by `ASTParser.parse_file`, `ContextEngine.hydrate_for_task`
and `ContextEngine.get_test_selection`. -/
def moduleNameOfPath (p : String) : String :=
  pyRstrip (replaceChar '\\' '.' (replaceChar '/' '.' p)) ['.', 'p', 'y']

/-- Whether `l` begins with `pat`. -/
def listStarts : List Char → List Char → Bool
  | _, [] => true
  | [], _ :: _ => false
  | a :: as, b :: bs => a = b && listStarts as bs

/-- Whether `pat` occurs as a contiguous run inside `l` (Python `pat in l`). -/
def listHasSub (pat : List Char) : List Char → Bool
  | [] => listStarts [] pat
  | a :: t => listStarts (a :: t) pat || listHasSub pat t

/-- Python `pat in s` on strings. -/
def strContains (s pat : String) : Bool :=
  listHasSub pat.data s.data

/-- Python `s.startswith(pat)`. -/
def strStarts (s pat : String) : Bool :=
  listStarts s.data pat.data

/-- Python `s.lower()` (ASCII-adequate for the test-path heuristic). -/
def strLower (s : String) : String :=
  String.mk (s.data.map Char.toLower)

/-- Python `s[:n]`. -/
def strTake (s : String) (n : Nat) : String :=
  String.mk (s.data.take n)

/-! ### context_engine.py — data model -/

/-- Structure `CodeNode` from `context_engine.py`.  The checksum set by `__post_init__`
is `sha256(source)[:12]`, an external library call; it is carried as plain
data (none of the specified properties depend on its value). -/
structure CodeNode where
  id : String
  filepath : String
  node_type : String
  source : String := ""
  lineno : Nat := 0
  dependencies : List String := []
  dependents : List String := []
  checksum : String := ""
deriving DecidableEq

/-- Python statements, as far as `ASTParser` inspects them.  `calls` on a
function node records the call-target names `_extract_calls` extracts from
the function body's expressions (unqualified identifiers and attribute
names); expression trees themselves are not needed by any claim. -/
inductive PyStmt where
  | classDef (name : String) (lineno : Nat) (body : List PyStmt)
  | funcDef (name : String) (lineno : Nat) (calls : List String) (body : List PyStmt)
  | asyncFuncDef (name : String) (lineno : Nat) (calls : List String) (body : List PyStmt)
  | importStmt (names : List String)
  | importFrom (mod : Option String)
  | other (body : List PyStmt)

mutual

/-- Number of nodes of one statement tree (strictly positive). -/
def pyStmtSize : PyStmt → Nat
  | .classDef _ _ b => 1 + pyStmtsSize b
  | .funcDef _ _ _ b => 1 + pyStmtsSize b
  | .asyncFuncDef _ _ _ b => 1 + pyStmtsSize b
  | .importStmt _ => 1
  | .importFrom _ => 1
  | .other b => 1 + pyStmtsSize b

/-- Total node count of a statement list. -/
def pyStmtsSize : List PyStmt → Nat
  | [] => 0
  | s :: t => pyStmtSize s + pyStmtsSize t

end

/-- Child statements, for the breadth-first `ast.walk`. -/
def pyChildren : PyStmt → List PyStmt
  | .classDef _ _ b => b
  | .funcDef _ _ _ b => b
  | .asyncFuncDef _ _ _ b => b
  | .importStmt _ => []
  | .importFrom _ => []
  | .other b => b

/-- Python `ast.walk`: breadth-first enumeration of all statements.  The fuel is an
upper bound on the number of tree nodes (`sizeOf` dominates the node count),
so the enumeration is never truncated. -/
def astWalk : Nat → List PyStmt → List PyStmt
  | 0, _ => []
  | _ + 1, [] => []
  | fuel + 1, s :: rest => s :: astWalk fuel (rest ++ pyChildren s)

/-- Embedding of `ASTParser._extract_imports`: import targets in walk order. -/
def extract_imports (body : List PyStmt) : List String :=
  (astWalk (pyStmtsSize body + 1) body).foldl
    (fun acc s =>
      match s with
      | .importStmt names => acc ++ names
      | .importFrom (some m) => acc ++ [m]
      | _ => acc) []

/-- Python `list(set(calls))` at the end of `_extract_calls`: deduplication
(modelled in first-occurrence order). -/
def dedupNames (l : List String) : List String :=
  l.foldl (fun acc x => setAdd x acc) []

/-- Embedding of `ASTParser.parse_file` on a file that parses: one module node (source
snippet abstracted as the raw text handed in), then one node per `ClassDef` /
`FunctionDef` / `AsyncFunctionDef` found by `ast.walk`, in walk order.
Unparsable files return `[]` at the call site and never reach this point. -/
def parse_file (filepath : String) (moduleSource : String) (body : List PyStmt) :
    List CodeNode :=
  let module_name := moduleNameOfPath filepath
  let imports := extract_imports body
  let moduleNode : CodeNode :=
    { id := module_name, filepath := filepath, node_type := "module",
      source := moduleSource, dependencies := imports }
  moduleNode ::
    (astWalk (pyStmtsSize body + 1) body).foldl
      (fun acc s =>
        match s with
        | .classDef name lineno _ =>
            acc ++ [{ id := module_name ++ "." ++ name, filepath := filepath,
                      node_type := "class", lineno := lineno,
                      dependencies := [module_name] }]
        | .funcDef name lineno calls _ =>
            acc ++ [{ id := module_name ++ "." ++ name, filepath := filepath,
                      node_type := "function", lineno := lineno,
                      dependencies := [module_name] ++ dedupNames calls }]
        | .asyncFuncDef name lineno calls _ =>
            acc ++ [{ id := module_name ++ "." ++ name, filepath := filepath,
                      node_type := "function", lineno := lineno,
                      dependencies := [module_name] ++ dedupNames calls }]
        | _ => acc) []

/-! ### context_engine.py — DependencyDAG -/

/-- Structure `DependencyDAG`: node dict plus forward/reverse adjacency
(`defaultdict(set)`, entries created on first `add`). -/
structure DependencyDAG where
  nodes : List (String × CodeNode) := []
  forward : List (String × List String) := []
  reverse : List (String × List String) := []
deriving DecidableEq

/-- Python `m.get(k, [])` on an adjacency map. -/
def adjacency (m : List (String × List String)) (k : String) : List String :=
  (dictGet m k).getD []

/-- Python `m[k].add(v)` on a `defaultdict(set)`. -/
def adjAdd (m : List (String × List String)) (k v : String) :
    List (String × List String) :=
  dictInsert k (setAdd v (adjacency m k)) m

/-- Embedding of `DependencyDAG.add_node`. -/
def add_node (dag : DependencyDAG) (node : CodeNode) : DependencyDAG :=
  node.dependencies.foldl
    (fun d dep =>
      { d with forward := adjAdd d.forward node.id dep,
               reverse := adjAdd d.reverse dep node.id })
    { dag with nodes := dictInsert node.id node dag.nodes }

/-- Total number of adjacency entries — dominates the number of queue
insertions any BFS over the map can perform. -/
def totalAdjLen (m : List (String × List String)) : Nat :=
  m.foldl (fun n p => n + p.2.length) 0

/-- The shared BFS loop of `get_dependencies` / `get_dependents`: a FIFO of
`(id, depth)` pairs, a visited set, results in discovery order, excluding the
start id and ids without a node entry.  Each popped element was inserted
exactly once, and insertions beyond the initial one happen only when an
unvisited id within the depth bound is processed — at most once per map key —
each contributing its adjacency list; so total pops are at most
`1 + totalAdjLen`, and the fuel below never truncates the loop. -/
def bfsAux (nodes : List (String × CodeNode)) (adj : List (String × List String))
    (start : String) (bound : Nat) :
    Nat → List (String × Nat) → List String → List CodeNode → List CodeNode
  | 0, _, _, acc => acc
  | _ + 1, [], _, acc => acc
  | fuel + 1, (cur, d) :: rest, visited, acc =>
    if cur ∈ visited || bound < d then
      bfsAux nodes adj start bound fuel rest visited acc
    else
      let acc2 :=
        match dictGet nodes cur with
        | some node => if cur ≠ start then acc ++ [node] else acc
        | none => acc
      bfsAux nodes adj start bound fuel
        (rest ++ (adjacency adj cur).map (fun nxt => (nxt, d + 1)))
        (cur :: visited) acc2

/-- Embedding of `DependencyDAG.get_dependencies(node_id, depth)`: forward BFS. -/
def get_dependencies (dag : DependencyDAG) (node_id : String) (depth : Nat) :
    List CodeNode :=
  bfsAux dag.nodes dag.forward node_id depth
    (totalAdjLen dag.forward + 2) [(node_id, 0)] [] []

/-- Embedding of `DependencyDAG.get_dependents(node_id, depth)`: reverse BFS. -/
def get_dependents (dag : DependencyDAG) (node_id : String) (depth : Nat) :
    List CodeNode :=
  bfsAux dag.nodes dag.reverse node_id depth
    (totalAdjLen dag.reverse + 2) [(node_id, 0)] [] []

/-- The in-degree table `topological_sort` builds: start every node of the
graph at 0, then for every node and every forward edge whose target is a
node, increment the target's count (counts stay exact in `Int`, mirroring
Python integers). -/
def topoInDegree (dag : DependencyDAG) : List (String × Int) :=
  dag.nodes.foldl
    (fun indeg p =>
      (adjacency dag.forward p.1).foldl
        (fun ind dep =>
          match dictGet ind dep with
          | some deg => dictInsert dep (deg + 1) ind
          | none => ind) indeg)
    (dag.nodes.map (fun p => (p.1, (0 : Int))))

/-- One Kahn step over the popped node's forward edges: decrement each
in-graph target, enqueue it when its count reaches zero. -/
def topoRelax (forward : List (String × List String)) (n : String)
    (st : List (String × Int) × List String) : List (String × Int) × List String :=
  (adjacency forward n).foldl
    (fun st2 dep =>
      match dictGet st2.1 dep with
      | some deg =>
          (dictInsert dep (deg - 1) st2.1,
           if deg - 1 = 0 then st2.2 ++ [dep] else st2.2)
      | none => st2) st

/-- The Kahn work loop.  Every id is enqueued at most once (initially when
its count is zero — such ids are never decremented — or at the single
downward crossing of zero), so pops never exceed the node count plus the
total adjacency size and the fuel never truncates the loop. -/
def topoLoop (forward : List (String × List String)) :
    Nat → List String → List (String × Int) → List String → List String
  | 0, _, _, res => res
  | _ + 1, [], _, res => res
  | fuel + 1, n :: queue, indeg, res =>
    let st := topoRelax forward n (indeg, queue)
    topoLoop forward fuel st.2 st.1 (res ++ [n])

/-- Embedding of `DependencyDAG.topological_sort`: Kahn's loop seeded with the ids whose
computed in-degree is zero, in node-insertion order. -/
def topological_sort (dag : DependencyDAG) : List String :=
  let indeg := topoInDegree dag
  let queue := (indeg.filter (fun p => p.2 = 0)).map (·.1)
  topoLoop dag.forward (dag.nodes.length + totalAdjLen dag.forward + 2)
    queue indeg []

/-! ### context_engine.py — ContextEngine -/

/-- The context bundle `hydrate_for_task` returns (`repo_structure` is the
capped flat file listing `_get_repo_structure` produces by walking the file
system; it is handed in as data since it does not involve the graph). -/
structure ContextBundle where
  issue : String
  target_files : List String
  dependency_context : List (String × String × String)
  affected_tests : List String
  repo_structure : List String
deriving DecidableEq

/-- The test-path-filtered depth-3 dependents of a target file's derived
module id, as `hydrate_for_task` computes them
(`[n for n in dependents if "test" in n.filepath.lower()]`). -/
def affectedTestsOf (dag : DependencyDAG) (fpath : String) : List String :=
  (((get_dependents dag (moduleNameOfPath fpath) 3)).filter
      (fun n => strContains (strLower n.filepath) "test")).map (·.filepath)

/-- One iteration of the `for fpath in target_files` loop of
`hydrate_for_task`: append the depth-2 upstream dependency snippets
(truncated to 500 characters) to `dependency_context`, and ASSIGN (not
append) the test-path-filtered depth-3 dependents to `affected_tests` —
overwriting the previous iteration's value. -/
def hydrateStep (dag : DependencyDAG) (ctx : ContextBundle) (fpath : String) :
    ContextBundle :=
  let module_id := moduleNameOfPath fpath
  let deps := get_dependencies dag module_id 2
  { ctx with
      dependency_context := ctx.dependency_context ++
        deps.map (fun n => (n.id, n.node_type, strTake n.source 500)),
      affected_tests := affectedTestsOf dag fpath }

/-- Embedding of `ContextEngine.hydrate_for_task`. -/
def hydrate_for_task (dag : DependencyDAG) (repoStructure : List String)
    (issue_text : String) (target_files : List String) : ContextBundle :=
  target_files.foldl (hydrateStep dag)
    { issue := issue_text, target_files := target_files,
      dependency_context := [], affected_tests := [],
      repo_structure := repoStructure }

/-- One file's checksum recording during `_build_dag`
(`self._file_checksums[fpath] = sha256(f.read())[:12]`); a path absent from
the file system records nothing (the build walk only yields existing
files). -/
def recordChecksum (h : List Nat → String) (fs : String → Option (List Nat))
    (table : List (String × String)) (f : String) : List (String × String) :=
  match fs f with
  | some content => dictInsert f (h content) table
  | none => table

/-- The file-checksum table `_build_dag` records: for every Python file the
walk finds, the hash of its byte content, keyed by path. -/
def buildFileChecksums (h : List Nat → String) (fs : String → Option (List Nat))
    (files : List String) : List (String × String) :=
  files.foldl (recordChecksum h fs) []

/-- One iteration of the `for fpath, old_checksum in ...` loop of
`get_changed_files`: a file that still exists and hashes differently is
appended; a file missing from the file system is silently skipped. -/
def changedStep (h : List Nat → String) (fs : String → Option (List Nat))
    (changed : List String) (p : String × String) : List String :=
  match fs p.1 with
  | some content => if h content ≠ p.2 then changed ++ [p.1] else changed
  | none => changed

/-- Embedding of `ContextEngine.get_changed_files`: re-hash every recorded file that still
exists and report those whose hash differs from the recorded value; the
recorded table itself is never updated by this call. -/
def get_changed_files (h : List Nat → String) (fs : String → Option (List Nat))
    (table : List (String × String)) : List String :=
  table.foldl (changedStep h fs) []

/-- The test-path predicate of `get_test_selection`:
`"test" in filepath.lower() or filepath.startswith("test")`. -/
def testPathHeuristic (filepath : String) : Bool :=
  strContains (strLower filepath) "test" || strStarts filepath "test"

/-- One iteration of the `for fpath in changed_files` loop of
`get_test_selection`: add to the accumulated set the filepath of every
test-path-matching depth-5 reverse-BFS dependent of the file's module id. -/
def selectStep (dag : DependencyDAG) (test_files : List String) (fpath : String) :
    List String :=
  let module_id := moduleNameOfPath fpath
  (get_dependents dag module_id 5).foldl
    (fun tf node =>
      if testPathHeuristic node.filepath then setAdd node.filepath tf else tf)
    test_files

/-- Embedding of `ContextEngine.get_test_selection`: union, over the changed files, of the
test-path-matching depth-5 reverse-BFS dependents of each file's module id,
accumulated into a set. -/
def get_test_selection (dag : DependencyDAG) (changed_files : List String) :
    List String :=
  changed_files.foldl (selectStep dag) []

/-! ### sandbox.py — SandboxPool lifecycle

The pool state records the ready queue (FIFO of sandbox ids), the active
dict (keyed by id; modelled as the list of keys) and the set of ids whose
`is_alive` flag has been set to `False` by `Sandbox.destroy`.  The
asynchronous replenishment threads spawned by `acquire` and `release`
materialise as separate `replenish` steps carrying the freshly created
sandbox id, so every interleaving of the real system is a sequence of the
operations below. -/

structure PoolState where
  ready : List String
  active : List String
  dead : List String
deriving DecidableEq

/-- The pool operations: a successful queue `get` inside `acquire`, the
on-demand creation path of `acquire` (fresh id), `release(handle, reuse)`,
and the arrival of an asynchronously provisioned sandbox in the ready
queue. -/
inductive PoolOp where
  | acqReady
  | acqDemand (fresh : String)
  | rel (id : String) (reuse : Bool)
  | replenish (fresh : String)
deriving DecidableEq

/-- One pool transition, mirroring `SandboxPool.acquire` / `release` /
`_create_and_queue_sandbox`:
* `acqReady` moves the queue head into the active dict (a no-op on an empty
  queue, where the real `acquire` would take the on-demand path instead);
* `acqDemand fresh` registers an on-demand sandbox as active;
* `rel id reuse` pops `id` from the active dict, then either re-queues it
  (when `reuse` is set and its liveness flag still holds) after the workspace
  clean, or destroys it — clearing the liveness flag and leaving the ready
  queue untouched (any top-up arrives later as a `replenish` step);
* `replenish fresh` puts an asynchronously created sandbox into the queue. -/
def poolStep (s : PoolState) : PoolOp → PoolState
  | .acqReady =>
      match s.ready with
      | [] => s
      | h :: t => { s with ready := t, active := setAdd h s.active }
  | .acqDemand fresh => { s with active := setAdd fresh s.active }
  | .rel id reuse =>
      let s2 := { s with active := s.active.filter (· ≠ id) }
      if reuse && decide (id ∉ s.dead) then
        { s2 with ready := s2.ready ++ [id] }
      else
        { s2 with dead := setAdd id s2.dead }
  | .replenish fresh => { s with ready := s.ready ++ [fresh] }

/-- Run a sequence of pool operations. -/
def poolRun (s : PoolState) (ops : List PoolOp) : PoolState :=
  ops.foldl poolStep s

/-- An operation never re-introduces the id `x`: freshly provisioned ids are
distinct from `x` (they carry fresh UUIDs), and `x` is not released again in
reuse mode. -/
def opAvoids (x : String) : PoolOp → Prop
  | .acqReady => True
  | .acqDemand fresh => fresh ≠ x
  | .rel id reuse => reuse = false ∨ id ≠ x
  | .replenish fresh => fresh ≠ x

instance (x : String) (op : PoolOp) : Decidable (opAvoids x op) := by
  cases op <;> simp [opAvoids] <;> infer_instance

/-! ### orchestrator.py — the Blueprint state machine

`MinionOrchestrator.run` drives external effects (context hydration, tool
curation, the agent's planning call, sandbox file writes, the lint and test
gates, PR creation and pool release).  A `RunEnv` fixes the behaviour of each
effect: `Except.error f` means the Python call raised an exception with
message `f`; per-attempt behaviours are indexed by the 0-based attempt
number.  Wall-clock durations (floats printed into messages and the
`duration_seconds` field) are not modelled. -/

/-- Enumeration `TaskStatus` from `orchestrator.py`. -/
inductive TaskStatus where
  | PENDING
  | RUNNING
  | LINTING
  | TESTING
  | SUCCESS
  | ESCALATED
  | FAILED
deriving DecidableEq

/-- Structure `TaskResult` (without the unmodelled wall-clock duration). -/
structure TaskResult where
  task_id : String
  status : TaskStatus
  message : String
  pr_url : String := ""
  attempts : Nat := 0
  plan_md : String := ""
  agent_explanation : String := ""
deriving DecidableEq

/-- Structure `AgentPlan` from `agent.py` (the float confidence field is only ever
printed into the PR body and is not modelled). -/
structure AgentPlan where
  code_patch : String
  filepath : String
  explanation : String
  test_hint : String := ""
deriving DecidableEq

/-- A `SandboxResult` as the gates consume it: `success ⇔ exit code = 0`,
plus the captured output streams that get fed back to the agent. -/
structure GateResult where
  success : Bool
  stdout : String := ""
  stderr : String := ""
deriving DecidableEq

/-- The behaviour of every external effect `run` performs.  `tests i` covers
both the selective-test call and the smoke-test fallback (both are a single
`sandbox.run_tests` invocation on attempt `i`). -/
structure RunEnv where
  maxRetries : Nat
  hydrate : Except String Unit
  tools : Except String Unit
  plan : Nat → Except String AgentPlan
  writeFile : Nat → Except String Unit
  lint : Nat → Except String GateResult
  tests : Nat → Except String GateResult
  createPR : Except String String
  release : Except String Unit

/-- Constant `MinionOrchestrator.MAX_RETRIES`. -/
def MAX_RETRIES : Nat := 2

/-- Observable events of one `run` execution: the start of a Blueprint-loop
attempt, and an invocation of `SandboxPool.release` with its `reuse` flag. -/
inductive RunEvent where
  | attemptStart (i : Nat)
  | releaseCall (reuse : Bool)
deriving DecidableEq

/-- Outcome of the Blueprint loop: success at a 0-based attempt index with
the accepted plan, exhaustion of the budget carrying `last_error`, or a
Python exception escaping the loop body. -/
inductive LoopOutcome where
  | success (attempt : Nat) (p : AgentPlan)
  | exhausted (lastError : String)
  | fault (f : String)
deriving DecidableEq

/-- Message `f"Agent produced empty code patch on attempt {attempt + 1}"`. -/
def emptyPatchMsg (n : Nat) : String :=
  "Agent produced empty code patch on attempt " ++ toString n

/-- Message `f"LINT FAILED:\n{lint_result.stdout}\n{lint_result.stderr}"`. -/
def lintFailMsg (r : GateResult) : String :=
  "LINT FAILED:" ++ "\n" ++ r.stdout ++ "\n" ++ r.stderr

/-- Python `s[-n:]`. -/
def strTakeLast (s : String) (n : Nat) : String :=
  String.mk ((s.data.reverse.take n).reverse)

/-- Message `f"TESTS FAILED:\n{test_result.stdout[-1500:]}\n{test_result.stderr[-500:]}"`. -/
def testsFailMsg (r : GateResult) : String :=
  "TESTS FAILED:" ++ "\n" ++ strTakeLast r.stdout 1500 ++ "\n" ++ strTakeLast r.stderr 500

/-- The `for attempt in range(MAX_RETRIES + 1)` loop of `run`, with `n`
attempts remaining and `i` the current 0-based attempt index.  An empty
`code_patch` (Python-falsy) feeds a synthetic error back and consumes the
attempt; a failing lint or test gate feeds the gate output back and consumes
the attempt; a raising step aborts the loop with a fault. -/
def loopGo (env : RunEnv) : Nat → Nat → String → LoopOutcome × List RunEvent
  | 0, _, lastError => (.exhausted lastError, [])
  | n + 1, i, _ =>
    let ev := RunEvent.attemptStart i
    match env.plan i with
    | .error f => (.fault f, [ev])
    | .ok p =>
      if p.code_patch = "" then
        let r := loopGo env n (i + 1) (emptyPatchMsg (i + 1))
        (r.1, ev :: r.2)
      else
        match env.writeFile i with
        | .error f => (.fault f, [ev])
        | .ok _ =>
          match env.lint i with
          | .error f => (.fault f, [ev])
          | .ok lr =>
            if lr.success = false then
              let r := loopGo env n (i + 1) (lintFailMsg lr)
              (r.1, ev :: r.2)
            else
              match env.tests i with
              | .error f => (.fault f, [ev])
              | .ok tr =>
                if tr.success = false then
                  let r := loopGo env n (i + 1) (testsFailMsg tr)
                  (r.1, ev :: r.2)
                else
                  (.success i p, [ev])

/-- Embedding of `MinionOrchestrator._create_pull_request`: its body is wrapped in its own
`try`/`except` that turns ANY exception into the offline placeholder string,
so it never raises into `run`. -/
def createPullRequest (env : RunEnv) (p : AgentPlan) : String :=
  match env.createPR with
  | .ok url => url
  | .error _ =>
      "[PR creation skipped - configure GITHUB_TOKEN. Change: " ++ p.filepath ++ "]"

/-- The `try` block of `run`: hydrate context, curate tools, run the
Blueprint loop, then build the SUCCESS or ESCALATED `TaskResult`.
`Except.error` is a Python exception escaping the block. -/
def runBody (env : RunEnv) (task_id : String) : Except String TaskResult × List RunEvent :=
  match env.hydrate with
  | .error f => (.error f, [])
  | .ok _ =>
    match env.tools with
    | .error f => (.error f, [])
    | .ok _ =>
      let r := loopGo env (env.maxRetries + 1) 0 ""
      match r.1 with
      | .fault f => (.error f, r.2)
      | .success i p =>
          (.ok { task_id := task_id, status := .SUCCESS,
                 message := "Task completed successfully in " ++ toString (i + 1) ++
                   " attempt(s).",
                 pr_url := createPullRequest env p,
                 attempts := i + 1,
                 agent_explanation := p.explanation }, r.2)
      | .exhausted lastError =>
          (.ok { task_id := task_id, status := .ESCALATED,
                 message := "Escalated to human after " ++ toString env.maxRetries ++
                   " retries. Last error: " ++ strTake lastError 200,
                 attempts := env.maxRetries + 1 }, r.2)

/-- Embedding of `MinionOrchestrator.run` after the sandbox has been acquired: the
`except Exception` handler turns a fault from the `try` block into a FAILED
`TaskResult`; the `finally` block then invokes `release(sandbox, reuse=False)`
unconditionally — and, per Python semantics, an exception raised by `release`
inside `finally` replaces the pending return value and propagates to the
caller. -/
def run (env : RunEnv) (task_id : String) : Except String TaskResult × List RunEvent :=
  let body := runBody env task_id
  let handled : Except String TaskResult :=
    match body.1 with
    | .ok r => .ok r
    | .error f =>
        .ok { task_id := task_id, status := .FAILED, message := "System error: " ++ f }
  let evs := body.2 ++ [RunEvent.releaseCall false]
  match env.release with
  | .ok _ => (handled, evs)
  | .error f => (.error f, evs)

/-- Number of Blueprint-loop attempts an event trace records. -/
def countAttempts (evs : List RunEvent) : Nat :=
  (evs.filter fun e => match e with | .attemptStart _ => true | _ => false).length

/-- Number of `release` invocations an event trace records. -/
def countReleases (evs : List RunEvent) : Nat :=
  (evs.filter fun e => match e with | .releaseCall _ => true | _ => false).length

/-! ### Event-trace bookkeeping lemmas -/

theorem countAttempts_nil : countAttempts [] = 0 := rfl

theorem countAttempts_cons_attempt (i : Nat) (l : List RunEvent) :
    countAttempts (RunEvent.attemptStart i :: l) = countAttempts l + 1 := by
  simp [countAttempts, List.filter]

theorem countAttempts_append (l1 l2 : List RunEvent) :
    countAttempts (l1 ++ l2) = countAttempts l1 + countAttempts l2 := by
  simp [countAttempts, List.filter_append]

theorem countReleases_append (l1 l2 : List RunEvent) :
    countReleases (l1 ++ l2) = countReleases l1 + countReleases l2 := by
  simp [countReleases, List.filter_append]

theorem countReleases_cons_attempt (i : Nat) (l : List RunEvent) :
    countReleases (RunEvent.attemptStart i :: l) = countReleases l := by
  simp [countReleases, List.filter]

theorem countReleases_cons_release (b : Bool) (l : List RunEvent) :
    countReleases (RunEvent.releaseCall b :: l) = countReleases l + 1 := by
  simp [countReleases, List.filter]

/-- A trace with no counted release invocation contains no release event. -/
theorem not_mem_release_of_countReleases_zero (l : List RunEvent)
    (h : countReleases l = 0) (b : Bool) : RunEvent.releaseCall b ∉ l := by
  induction l with
  | nil => simp
  | cons e t ih =>
    cases e with
    | attemptStart i =>
      rw [countReleases_cons_attempt] at h
      intro hmem
      rcases List.mem_cons.mp hmem with h1 | h1
      · exact RunEvent.noConfusion h1
      · exact ih h h1
    | releaseCall c =>
      rw [countReleases_cons_release] at h
      exact absurd h (Nat.succ_ne_zero _)

/-- The Blueprint loop never invokes `release` itself. -/
theorem countReleases_loopGo (env : RunEnv) :
    ∀ n i e, countReleases (loopGo env n i e).2 = 0 := by
  intro n
  induction n with
  | zero => intro i e; simp [loopGo, countReleases]
  | succ n ih =>
    intro i e
    simp only [loopGo]
    cases hp : env.plan i with
    | error f => simp [countReleases, List.filter]
    | ok p =>
      by_cases hpc : p.code_patch = ""
      · simp only [hpc, if_pos rfl, countReleases_cons_attempt]
        exact ih _ _
      · simp only [if_neg hpc]
        cases hw : env.writeFile i with
        | error f => simp [countReleases, List.filter]
        | ok u =>
          cases hl : env.lint i with
          | error f => simp [countReleases, List.filter]
          | ok lr =>
            by_cases hls : lr.success = false
            · simp only [hls, if_pos rfl, countReleases_cons_attempt]
              exact ih _ _
            · simp only [if_neg hls]
              cases ht : env.tests i with
              | error f => simp [countReleases, List.filter]
              | ok tr =>
                by_cases hts : tr.success = false
                · simp only [hts, if_pos rfl, countReleases_cons_attempt]
                  exact ih _ _
                · simp [if_neg hts, countReleases, List.filter]

/-- The `try` block never invokes `release` itself. -/
theorem countReleases_runBody (env : RunEnv) (tid : String) :
    countReleases (runBody env tid).2 = 0 := by
  unfold runBody
  cases hh : env.hydrate with
  | error f => simp [countReleases]
  | ok u =>
    cases ht : env.tools with
    | error f => simp [countReleases]
    | ok v =>
      cases ho : (loopGo env (env.maxRetries + 1) 0 "").1 <;>
        simpa [ho] using countReleases_loopGo env (env.maxRetries + 1) 0 ""

/-- The Blueprint loop with `n` remaining attempts starts at most `n`
attempts. -/
theorem countAttempts_loopGo_le (env : RunEnv) :
    ∀ n i e, countAttempts (loopGo env n i e).2 ≤ n := by
  intro n
  induction n with
  | zero => intro i e; simp [loopGo, countAttempts]
  | succ n ih =>
    intro i e
    simp only [loopGo]
    cases hp : env.plan i with
    | error f => simp [countAttempts, List.filter]
    | ok p =>
      by_cases hpc : p.code_patch = ""
      · simp only [hpc, if_pos rfl, countAttempts_cons_attempt]
        exact Nat.succ_le_succ (ih _ _)
      · simp only [if_neg hpc]
        cases hw : env.writeFile i with
        | error f => simp [countAttempts, List.filter]
        | ok u =>
          cases hl : env.lint i with
          | error f => simp [countAttempts, List.filter]
          | ok lr =>
            by_cases hls : lr.success = false
            · simp only [hls, if_pos rfl, countAttempts_cons_attempt]
              exact Nat.succ_le_succ (ih _ _)
            · simp only [if_neg hls]
              cases ht : env.tests i with
              | error f => simp [countAttempts, List.filter]
              | ok tr =>
                by_cases hts : tr.success = false
                · simp only [hts, if_pos rfl, countAttempts_cons_attempt]
                  exact Nat.succ_le_succ (ih _ _)
                · simp [if_neg hts, countAttempts, List.filter]

/-- A Planner that returns an empty patch at every attempt drives the loop to
exhaustion, with exactly one attempt started per budget unit. -/
theorem loopGo_allEmpty (env : RunEnv)
    (hplan : ∀ i, ∃ p, env.plan i = .ok p ∧ p.code_patch = "") :
    ∀ n i e, ∃ e2, (loopGo env n i e).1 = .exhausted e2 ∧
      countAttempts (loopGo env n i e).2 = n := by
  intro n
  induction n with
  | zero => intro i e; exact ⟨e, rfl, rfl⟩
  | succ n ih =>
    intro i e
    obtain ⟨p, hp, hpc⟩ := hplan i
    obtain ⟨e2, h1, h2⟩ := ih (i + 1) (emptyPatchMsg (i + 1))
    refine ⟨e2, ?_, ?_⟩ <;>
      simp [loopGo, hp, hpc, countAttempts_cons_attempt, h1, h2]

/-- The `try` block starts at most `maxRetries + 1` attempts. -/
theorem countAttempts_runBody_le (env : RunEnv) (tid : String) :
    countAttempts (runBody env tid).2 ≤ env.maxRetries + 1 := by
  unfold runBody
  cases hh : env.hydrate with
  | error f => simp [countAttempts]
  | ok u =>
    cases ht : env.tools with
    | error f => simp [countAttempts]
    | ok v =>
      cases ho : (loopGo env (env.maxRetries + 1) 0 "").1 <;>
        simpa [ho] using countAttempts_loopGo_le env (env.maxRetries + 1) 0 ""

/-- The event trace of `run` is the `try` block's trace followed by the
single release call, whatever `release` itself does. -/
theorem run_events (env : RunEnv) (tid : String) :
    (run env tid).2 = (runBody env tid).2 ++ [RunEvent.releaseCall false] := by
  unfold run
  cases env.release <;> rfl

/-! ### Claim C1 -/

/-- C1: when the Planner returns an empty code patch on every attempt (and
the steps before the loop, and the final release, behave normally), `run`
terminates with a TaskResult of status ESCALATED whose `attempts` field is
the retry budget plus one — 3 under the reference `MAX_RETRIES = 2` — with
each empty patch consuming exactly one started attempt; and for EVERY
behaviour of the effects, the loop starts at most budget + 1 attempts. -/
theorem run_allEmpty_escalates (env : RunEnv) (tid : String)
    (hhyd : env.hydrate = .ok ()) (htools : env.tools = .ok ())
    (hrel : env.release = .ok ())
    (hplan : ∀ i, ∃ p, env.plan i = .ok p ∧ p.code_patch = "") :
    (∃ res, (run env tid).1 = .ok res ∧ res.status = .ESCALATED ∧
      res.attempts = env.maxRetries + 1 ∧
      (env.maxRetries = MAX_RETRIES → res.attempts = 3)) ∧
    countAttempts (run env tid).2 = env.maxRetries + 1 ∧
    (∀ env2 tid2, countAttempts (run env2 tid2).2 ≤ env2.maxRetries + 1) := by
  obtain ⟨e2, hout, hcnt⟩ := loopGo_allEmpty env hplan (env.maxRetries + 1) 0 ""
  have hbody1 : (runBody env tid).1 =
      .ok { task_id := tid, status := .ESCALATED,
            message := "Escalated to human after " ++ toString env.maxRetries ++
              " retries. Last error: " ++ strTake e2 200,
            attempts := env.maxRetries + 1 } := by
    unfold runBody
    simp [hhyd, htools, hout]
  have hbody2 : (runBody env tid).2 = (loopGo env (env.maxRetries + 1) 0 "").2 := by
    unfold runBody
    simp [hhyd, htools, hout]
  have hrun1 : (run env tid).1 = (runBody env tid).1 := by
    unfold run
    simp [hrel, hbody1]
  refine ⟨⟨{ task_id := tid, status := .ESCALATED,
             message := "Escalated to human after " ++ toString env.maxRetries ++
               " retries. Last error: " ++ strTake e2 200,
             attempts := env.maxRetries + 1 },
           ?_, rfl, rfl, fun h => by simp [h, MAX_RETRIES]⟩, ?_, ?_⟩
  · rw [hrun1, hbody1]
  · rw [run_events, countAttempts_append, hbody2, hcnt]
    simp [countAttempts, List.filter]
  · intro env2 tid2
    rw [run_events, countAttempts_append]
    have h1 := countAttempts_runBody_le env2 tid2
    have h2 : countAttempts [RunEvent.releaseCall false] = 0 := by
      simp [countAttempts, List.filter]
    omega

/-- A behaviour in which every step succeeds but the Planner always returns
an empty patch, under the reference retry budget. -/
def allEmptyEnv : RunEnv :=
  { maxRetries := MAX_RETRIES, hydrate := .ok (), tools := .ok (),
    plan := fun _ => .ok { code_patch := "", filepath := "", explanation := "" },
    writeFile := fun _ => .ok (), lint := fun _ => .ok { success := true },
    tests := fun _ => .ok { success := true },
    createPR := .ok "", release := .ok () }

/-- Witness for C1 at the concrete always-empty behaviour. -/
theorem run_allEmpty_escalates_witness :
    ∃ res, (run allEmptyEnv "task-1").1 = .ok res ∧ res.status = .ESCALATED ∧
      res.attempts = 3 := by
  obtain ⟨⟨res, h1, h2, h3, h4⟩, -, -⟩ :=
    run_allEmpty_escalates allEmptyEnv "task-1" rfl rfl rfl
      (fun i => ⟨{ code_patch := "", filepath := "", explanation := "" }, rfl, rfl⟩)
  exact ⟨res, h1, h2, h4 rfl⟩

/-! ### Claim C2 -/

/-- C2: whatever the effects do — success, escalation, a FAILED result from
a caught fault, or even a fault raised by `release` itself — `run` invokes
the pool's release exactly once, always with `reuse = false`, on the sandbox
it acquired for the task. -/
theorem run_release_exactly_once (env : RunEnv) (tid : String) :
    countReleases (run env tid).2 = 1 ∧
    ∀ b, RunEvent.releaseCall b ∈ (run env tid).2 → b = false := by
  constructor
  · rw [run_events, countReleases_append, countReleases_runBody]
    simp [countReleases, List.filter]
  · intro b hb
    rw [run_events] at hb
    rcases List.mem_append.mp hb with h1 | h1
    · exact absurd h1
        (not_mem_release_of_countReleases_zero _ (countReleases_runBody env tid) b)
    · rcases List.mem_singleton.mp h1 with h2
      cases h2
      rfl

/-! ### Claim C8 -/

/-- A behaviour in which every step inside the `try` block succeeds but the
`release` call in the `finally` block raises (e.g. the replenishment thread
cannot be started). -/
def relFaultEnv : RunEnv :=
  { maxRetries := MAX_RETRIES, hydrate := .ok (), tools := .ok (),
    plan := fun _ => .ok { code_patch := "fix", filepath := "a.py", explanation := "e" },
    writeFile := fun _ => .ok (), lint := fun _ => .ok { success := true },
    tests := fun _ => .ok { success := true },
    createPR := .ok "https://pr/1",
    release := .error "cannot start replenishment thread" }

/-- C8 counterexample: `release` sits in the `finally` block, outside the
`except Exception` handler, so a fault raised by the release step is NOT
caught and reported as a FAILED TaskResult — it propagates to the caller,
discarding the pending result.  Here every gate passed, yet `run` raises. -/
theorem run_release_fault_escapes :
    (run relFaultEnv "task-1").1 = .error "cannot start replenishment thread" := by
  rfl

/-- C8 amended: whenever the release step itself does not fault, `run`
returns a TaskResult (no exception escapes), and any fault raised inside the
`try` block — context hydration, planning, writing the patch, either gate,
PR creation — is caught and reported as a TaskResult with status FAILED. -/
theorem run_total_when_release_ok (env : RunEnv) (tid : String)
    (hrel : env.release = .ok ()) :
    (∃ res, (run env tid).1 = .ok res) ∧
    (∀ f, (runBody env tid).1 = .error f →
      (run env tid).1 =
        .ok { task_id := tid, status := .FAILED, message := "System error: " ++ f }) := by
  constructor
  · cases hb : (runBody env tid).1 with
    | ok r => exact ⟨r, by unfold run; simp [hrel, hb]⟩
    | error f =>
        exact ⟨{ task_id := tid, status := .FAILED, message := "System error: " ++ f },
          by unfold run; simp [hrel, hb]⟩
  · intro f hf
    unfold run
    simp [hrel, hf]

/-- A behaviour whose context hydration raises while release is healthy. -/
def hydFaultEnv : RunEnv :=
  { maxRetries := MAX_RETRIES, hydrate := .error "repo walk exploded", tools := .ok (),
    plan := fun _ => .ok { code_patch := "fix", filepath := "a.py", explanation := "e" },
    writeFile := fun _ => .ok (), lint := fun _ => .ok { success := true },
    tests := fun _ => .ok { success := true },
    createPR := .ok "https://pr/1", release := .ok () }

/-- Witness for the amended C8 at a concrete faulting behaviour. -/
theorem run_total_when_release_ok_witness :
    (run hydFaultEnv "task-1").1 =
      .ok { task_id := "task-1", status := .FAILED,
            message := "System error: repo walk exploded" } := by
  exact (run_total_when_release_ok hydFaultEnv "task-1" rfl).2
    "repo walk exploded" rfl

/-! ### Membership lemmas for the set/dict primitives -/

theorem mem_setAdd_self (x : String) (s : List String) : x ∈ setAdd x s := by
  unfold setAdd
  split
  · assumption
  · exact List.mem_append.mpr (Or.inr (List.mem_singleton.mpr rfl))

theorem mem_setAdd_of_mem (x y : String) (s : List String) (hx : x ∈ s) :
    x ∈ setAdd y s := by
  unfold setAdd
  split
  · exact hx
  · exact List.mem_append.mpr (Or.inl hx)

theorem not_mem_setAdd (x y : String) (s : List String)
    (hs : x ∉ s) (hxy : y ≠ x) : x ∉ setAdd y s := by
  unfold setAdd
  split
  · exact hs
  · intro hmem
    rcases List.mem_append.mp hmem with h1 | h1
    · exact hs h1
    · exact hxy (List.mem_singleton.mp h1).symm

theorem mem_dictInsert {α : Type} (k : String) (v : α) (d : List (String × α))
    (p : String × α) (hp : p ∈ dictInsert k v d) : p = (k, v) ∨ p ∈ d := by
  induction d with
  | nil => simpa [dictInsert] using hp
  | cons q t ih =>
    obtain ⟨k2, v2⟩ := q
    by_cases h : k2 = k
    · rw [dictInsert, if_pos h] at hp
      rcases List.mem_cons.mp hp with h1 | h1
      · exact Or.inl (by rw [h1, h])
      · exact Or.inr (List.mem_cons.mpr (Or.inr h1))
    · rw [dictInsert, if_neg h] at hp
      rcases List.mem_cons.mp hp with h1 | h1
      · exact Or.inr (List.mem_cons.mpr (Or.inl h1))
      · rcases ih h1 with h2 | h2
        · exact Or.inl h2
        · exact Or.inr (List.mem_cons.mpr (Or.inr h2))

/-! ### Claims C6 and C10 -/

/-- Every table entry `_build_dag` records carries the hash of the recorded
file's content in the very file system it was built from. -/
theorem buildFileChecksums_sound (h : List Nat → String)
    (fs : String → Option (List Nat)) (files : List String) :
    ∀ p ∈ buildFileChecksums h fs files, (fs p.1).map h = some p.2 := by
  unfold buildFileChecksums
  have aux : ∀ (fl : List String) (acc : List (String × String)),
      (∀ p ∈ acc, (fs p.1).map h = some p.2) →
      ∀ p ∈ fl.foldl (recordChecksum h fs) acc, (fs p.1).map h = some p.2 := by
    intro fl
    induction fl with
    | nil => intro acc hacc; simpa using hacc
    | cons f t ih =>
      intro acc hacc
      simp only [List.foldl_cons]
      apply ih
      intro p hp
      unfold recordChecksum at hp
      cases hfs : fs f with
      | none => rw [hfs] at hp; exact hacc p hp
      | some c =>
        rw [hfs] at hp
        rcases mem_dictInsert _ _ _ _ hp with h1 | h1
        · rw [h1]; simp [hfs]
        · exact hacc p h1
  exact aux files [] (by simp)

/-- A table entry whose file still hashes to the recorded value contributes
nothing to the changed list. -/
theorem changedStep_matching (h : List Nat → String)
    (fs : String → Option (List Nat)) (acc : List String) (p : String × String)
    (hm : (fs p.1).map h = some p.2) : changedStep h fs acc p = acc := by
  cases hfs : fs p.1 with
  | none => simp [changedStep, hfs]
  | some c =>
    rw [hfs] at hm
    simp only [Option.map] at hm
    have hm2 : h c = p.2 := Option.some_inj.mp hm
    simp [changedStep, hfs, hm2]

/-- C6: if no file write has happened before or between the two calls — so
that every recorded checksum still matches the current content of its file —
`get_changed_files` returns the empty list; in particular a table built by
`_build_dag` from the same file-system state yields an empty result, and
since the call never mutates the table, a second call under the same state
returns the empty list as well. -/
theorem get_changed_files_empty_of_no_writes (h : List Nat → String)
    (fs : String → Option (List Nat)) (table : List (String × String))
    (hrec : ∀ p ∈ table, (fs p.1).map h = some p.2) :
    get_changed_files h fs table = [] ∧
    ∀ files, get_changed_files h fs (buildFileChecksums h fs files) = [] := by
  have aux : ∀ (tbl : List (String × String)) (acc : List String),
      (∀ p ∈ tbl, (fs p.1).map h = some p.2) →
      tbl.foldl (changedStep h fs) acc = acc := by
    intro tbl
    induction tbl with
    | nil => intro acc _; rfl
    | cons q t ih =>
      intro acc hall
      simp only [List.foldl_cons]
      rw [changedStep_matching h fs acc q (hall q (List.mem_cons_self q t))]
      exact ih acc (fun p hp => hall p (List.mem_cons.mpr (Or.inr hp)))
  refine ⟨aux table [] hrec, fun files => ?_⟩
  exact aux (buildFileChecksums h fs files) []
    (buildFileChecksums_sound h fs files)

/-- A simple concrete stand-in for the truncated SHA-256 hex digest. -/
def hashC : List Nat → String :=
  fun c => toString (c.foldl (fun a b => a + b) 0)

/-- A two-file file system used by the change-detection witnesses. -/
def fsA : String → Option (List Nat) :=
  fun p => if p = "a.py" then some [1, 2] else if p = "b.py" then some [7] else none

/-- Witness for C6: building the table and re-checking it against the same
file-system state reports no changed file. -/
theorem get_changed_files_empty_witness :
    get_changed_files hashC fsA (buildFileChecksums hashC fsA ["a.py", "b.py"]) = [] := by
  exact (get_changed_files_empty_of_no_writes hashC fsA
    (buildFileChecksums hashC fsA ["a.py", "b.py"]) (by decide)).1

/-- C10: a file recorded in the checksum table that no longer exists in the
file system is never reported by `get_changed_files` — deletions are
invisible to change detection. -/
theorem get_changed_files_skips_deleted (h : List Nat → String)
    (fs : String → Option (List Nat)) (table : List (String × String))
    (x : String) (hdel : fs x = none) :
    x ∉ get_changed_files h fs table := by
  unfold get_changed_files
  have aux : ∀ (tbl : List (String × String)) (acc : List String),
      x ∉ acc → x ∉ tbl.foldl (changedStep h fs) acc := by
    intro tbl
    induction tbl with
    | nil => intro acc hacc; simpa using hacc
    | cons q t ih =>
      intro acc hacc
      simp only [List.foldl_cons]
      apply ih
      cases hfs : fs q.1 with
      | none => simpa [changedStep, hfs] using hacc
      | some c =>
        by_cases hne : h c ≠ q.2
        · simp only [changedStep, hfs, if_pos hne]
          intro hmem
          rcases List.mem_append.mp hmem with h1 | h1
          · exact hacc h1
          · have hx : x = q.1 := List.mem_singleton.mp h1
            rw [hx, hfs] at hdel
            exact Option.noConfusion hdel
        · simpa [changedStep, hfs, if_neg hne] using hacc
  exact aux table [] (by simp)

/-- A checksum table that still lists a since-deleted file. -/
def staleTable : List (String × String) := [("gone.py", "9"), ("a.py", "3")]

/-- Witness for C10: the deleted file is absent from the changed list even
though its entry is stale. -/
theorem get_changed_files_skips_deleted_witness :
    "gone.py" ∉ get_changed_files hashC fsA staleTable := by
  exact get_changed_files_skips_deleted hashC fsA staleTable "gone.py" (by decide)

/-! ### A small concrete dependency graph used by several witnesses:
two library modules `a` and `b`, each imported by its own test module. -/

def nodeLibA : CodeNode := { id := "a", filepath := "a.py", node_type := "module" }

def nodeLibB : CodeNode := { id := "b", filepath := "b.py", node_type := "module" }

def nodeTestA : CodeNode :=
  { id := "tests.test_a", filepath := "tests/test_a.py", node_type := "module",
    dependencies := ["a"] }

def nodeTestB : CodeNode :=
  { id := "tests.test_b", filepath := "tests/test_b.py", node_type := "module",
    dependencies := ["b"] }

def exDagTests : DependencyDAG :=
  add_node (add_node (add_node (add_node {} nodeLibA) nodeLibB) nodeTestA) nodeTestB

/-! ### Claim C9 -/

/-- Folding test-path insertions over any node list preserves membership of
the accumulated set. -/
theorem foldl_testAdd_mono (x : String) :
    ∀ (nodes : List CodeNode) (tf : List String), x ∈ tf →
      x ∈ nodes.foldl
        (fun tf node =>
          if testPathHeuristic node.filepath then setAdd node.filepath tf else tf)
        tf := by
  intro nodes
  induction nodes with
  | nil => intro tf hx; simpa using hx
  | cons n t ih =>
    intro tf hx
    simp only [List.foldl_cons]
    apply ih
    by_cases hh : testPathHeuristic n.filepath = true
    · rw [if_pos hh]; exact mem_setAdd_of_mem x n.filepath tf hx
    · rw [if_neg hh]; exact hx

/-- Processing one more changed file only grows the accumulated test set. -/
theorem selectStep_mono (dag : DependencyDAG) (tf : List String)
    (fpath x : String) (hx : x ∈ tf) : x ∈ selectStep dag tf fpath :=
  foldl_testAdd_mono x (get_dependents dag (moduleNameOfPath fpath) 5) tf hx

/-- C9: `get_test_selection` is monotonic — every filepath selected for a
list of changed files is still selected after appending one more changed
file. -/
theorem get_test_selection_monotone (dag : DependencyDAG)
    (changed_files : List String) (x p : String)
    (hp : p ∈ get_test_selection dag changed_files) :
    p ∈ get_test_selection dag (changed_files ++ [x]) := by
  unfold get_test_selection at hp ⊢
  rw [List.foldl_append, List.foldl_cons, List.foldl_nil]
  exact selectStep_mono dag _ x p hp

/-- Witness for C9 on the concrete graph: `tests/test_a.py` is selected for
`["a.py"]` and remains selected after `"b.py"` is appended. -/
theorem get_test_selection_monotone_witness :
    "tests/test_a.py" ∈ get_test_selection exDagTests (["a.py"] ++ ["b.py"]) := by
  exact get_test_selection_monotone exDagTests ["a.py"] "b.py" "tests/test_a.py"
    (by decide)

/-! ### Claim C7 -/

/-- After folding the hydration step over a target list, `affected_tests`
holds exactly the last target's test list — every earlier target's list has
been overwritten. -/
theorem foldl_hydrate_affected (dag : DependencyDAG) :
    ∀ (l : List String) (ctx : ContextBundle),
      (l.foldl (hydrateStep dag) ctx).affected_tests =
        match l.getLast? with
        | none => ctx.affected_tests
        | some f => affectedTestsOf dag f := by
  intro l
  induction l with
  | nil => intro ctx; rfl
  | cons a t ih =>
    intro ctx
    cases t with
    | nil => rfl
    | cons b t2 =>
      rw [List.foldl_cons, ih (hydrateStep dag ctx a), List.getLast?_cons_cons]
      cases h : (b :: t2).getLast? with
      | none => exact absurd (List.getLast?_eq_none_iff.mp h) (List.cons_ne_nil b t2)
      | some y => rfl

/-- C7 counterexample: with targets `["a.py", "b.py"]`, the test file
`tests/test_a.py` is a test-path-matching depth-3 dependent of the first
target's module id, yet it is missing from the returned bundle — the second
iteration overwrote the first target's affected-test list. -/
theorem hydrate_for_task_drops_first_target_tests :
    "tests/test_a.py" ∈ affectedTestsOf exDagTests "a.py" ∧
    "tests/test_a.py" ∉
      (hydrate_for_task exDagTests [] "fix" ["a.py", "b.py"]).affected_tests ∧
    (hydrate_for_task exDagTests [] "fix" ["a.py", "b.py"]).affected_tests =
      ["tests/test_b.py"] := by
  decide

/-- C7 amended: the `affected_tests` list of the bundle
`hydrate_for_task` returns equals the test-path-filtered depth-3 dependents
of the LAST target file's module id alone (empty when there is no target);
earlier targets' test lists are overwritten, not accumulated. -/
theorem hydrate_for_task_affected_tests_last (dag : DependencyDAG)
    (repoStructure : List String) (issue_text : String)
    (target_files : List String) :
    (hydrate_for_task dag repoStructure issue_text target_files).affected_tests =
      match target_files.getLast? with
      | none => []
      | some f => affectedTestsOf dag f := by
  unfold hydrate_for_task
  rw [foldl_hydrate_affected]

/-! ### Claim C3 -/

/-- A two-node graph in which node `A` declares a dependency on node `B`. -/
def nodeDepA : CodeNode :=
  { id := "A", filepath := "A.src", node_type := "module", dependencies := ["B"] }

def nodeDepB : CodeNode :=
  { id := "B", filepath := "B.src", node_type := "module" }

def exDagAB : DependencyDAG := add_node (add_node {} nodeDepA) nodeDepB

/-- C3 evaluation at the failing input: in the graph where `A` depends on the
in-graph node `B`, `topological_sort` returns `["A", "B"]` — `A` appears
BEFORE the node it depends on, because the in-degree computed over the
forward map counts dependents, so the seed queue holds the nodes nothing
depends on rather than the nodes with no dependencies.  This contradicts the
claimed (and docstring-stated) dependency-first order, which would require
`B` to appear before `A`. -/
theorem topological_sort_dependent_first :
    topological_sort exDagAB = ["A", "B"] ∧
    "B" ∈ adjacency exDagAB.forward "A" ∧
    (dictGet exDagAB.nodes "B").isSome = true := by
  decide

/-! ### Claim C4 -/

/-- A single parsable file with two classes that each define a method named
`foo` (distinct definitions at distinct lines). -/
def dupFile : List PyStmt :=
  [ .classDef "A" 1 [ .funcDef "foo" 2 [] [] ],
    .classDef "B" 4 [ .funcDef "foo" 5 [] [] ] ]

/-- C4 evaluation at the failing input: parsing `m.py` containing
`class A: def foo ...` and `class B: def foo ...` yields two distinct
CodeNodes (different line numbers) that both carry the id `"m.foo"`, because
function ids are `module.name` with no class qualifier — the produced id
list is not duplicate-free, violating the required uniqueness invariant
within a single file, let alone a whole build. -/
theorem parse_file_duplicate_ids :
    ((parse_file "m.py" "" dupFile).map (·.id)) =
      ["m", "m.A", "m.B", "m.foo", "m.foo"] ∧
    ¬ ((parse_file "m.py" "" dupFile).map (·.id)).Nodup ∧
    ((parse_file "m.py" "" dupFile).map (·.lineno))[3]? ≠
      ((parse_file "m.py" "" dupFile).map (·.lineno))[4]? := by
  decide

/-- C4, second failing input: two DISTINCT file paths can also collide on
the module id itself, because `rstrip(".py")` strips trailing characters
from the set `{'.', 'p', 'y'}` instead of removing the `.py` suffix:
`"a.py"` and `"apy.py"` both derive module id `"a"`. -/
theorem parse_file_path_collision :
    moduleNameOfPath "a.py" = "a" ∧ moduleNameOfPath "apy.py" = "a" ∧
    moduleNameOfPath "happy.py" = "ha" := by
  decide

/-! ### Claim C5 -/

/-- Once `x` is out of both the active set and the ready queue with its
liveness flag cleared, no pool operation that avoids `x` can bring it
back. -/
theorem poolStep_preserves_gone (s : PoolState) (op : PoolOp) (x : String)
    (hop : opAvoids x op) (ha : x ∉ s.active) (hr : x ∉ s.ready)
    (hd : x ∈ s.dead) :
    x ∉ (poolStep s op).active ∧ x ∉ (poolStep s op).ready ∧
      x ∈ (poolStep s op).dead := by
  cases op with
  | acqReady =>
    cases hready : s.ready with
    | nil => simp only [poolStep, hready]; exact ⟨ha, by rw [← hready]; exact hr, hd⟩
    | cons hd2 t =>
      rw [hready] at hr
      have hxh : x ≠ hd2 := fun hEq => hr (by rw [hEq]; exact List.mem_cons_self hd2 t)
      have hxt : x ∉ t := fun hmem => hr (List.mem_cons.mpr (Or.inr hmem))
      simp only [poolStep, hready]
      exact ⟨not_mem_setAdd x hd2 s.active ha (fun hEq => hxh hEq.symm), hxt, hd⟩
  | acqDemand fresh =>
    exact ⟨not_mem_setAdd x fresh s.active ha hop, hr, hd⟩
  | rel id reuse =>
    have hactive : x ∉ s.active.filter (· ≠ id) :=
      fun hmem => ha (List.mem_of_mem_filter hmem)
    simp only [poolStep]
    by_cases hbr : (reuse && decide (id ∉ s.dead)) = true
    · rw [if_pos hbr]
      have hid : id ≠ x := by
        rcases hop with hfalse | hne
        · rw [hfalse] at hbr; simp at hbr
        · exact hne
      refine ⟨hactive, ?_, hd⟩
      intro hmem
      rcases List.mem_append.mp hmem with h1 | h1
      · exact hr h1
      · exact hid (List.mem_singleton.mp h1).symm
    · rw [if_neg hbr]
      exact ⟨hactive, hr, mem_setAdd_of_mem x id s.dead hd⟩
  | replenish fresh =>
    refine ⟨ha, ?_, hd⟩
    intro hmem
    rcases List.mem_append.mp hmem with h1 | h1
    · exact hr h1
    · exact hop (List.mem_singleton.mp h1).symm

/-- The exclusion of a destroyed handle is stable under any sequence of
avoiding pool operations. -/
theorem poolRun_preserves_gone (x : String) :
    ∀ (ops : List PoolOp) (s : PoolState), (∀ op ∈ ops, opAvoids x op) →
      x ∉ s.active → x ∉ s.ready → x ∈ s.dead →
      x ∉ (poolRun s ops).active ∧ x ∉ (poolRun s ops).ready ∧
        x ∈ (poolRun s ops).dead := by
  intro ops
  induction ops with
  | nil => intro s _ ha hr hd; exact ⟨ha, hr, hd⟩
  | cons op t ih =>
    intro s hops ha hr hd
    have hstep := poolStep_preserves_gone s op x
      (hops op (List.mem_cons_self op t)) ha hr hd
    exact ih (poolStep s op)
      (fun o ho => hops o (List.mem_cons.mpr (Or.inr ho)))
      hstep.1 hstep.2.1 hstep.2.2

/-- C5: `release(handle, reuse := false)` clears the handle's liveness flag,
removes it from the active set and leaves the ready queue untouched (it is
never re-queued); and afterwards — under any sequence of pool operations in
which freshly provisioned sandboxes carry fresh ids and the destroyed handle
is not released again in reuse mode — the active set (and the ready queue)
never contains that handle again. -/
theorem release_destroy_no_reentry (s : PoolState) (x : String)
    (ops : List PoolOp) (hr : x ∉ s.ready)
    (hops : ∀ op ∈ ops, opAvoids x op) :
    x ∈ (poolStep s (.rel x false)).dead ∧
    x ∉ (poolStep s (.rel x false)).active ∧
    (poolStep s (.rel x false)).ready = s.ready ∧
    x ∉ (poolRun (poolStep s (.rel x false)) ops).active ∧
    x ∉ (poolRun (poolStep s (.rel x false)) ops).ready := by
  have hstate : poolStep s (.rel x false) =
      { ready := s.ready, active := s.active.filter (· ≠ x),
        dead := setAdd x s.dead } := by
    simp [poolStep]
  have hdead : x ∈ (poolStep s (.rel x false)).dead := by
    rw [hstate]; exact mem_setAdd_self x s.dead
  have hact : x ∉ (poolStep s (.rel x false)).active := by
    rw [hstate]
    intro hmem
    have := List.of_mem_filter hmem
    simp at this
  have hrdy : (poolStep s (.rel x false)).ready = s.ready := by rw [hstate]
  have hafter := poolRun_preserves_gone x ops (poolStep s (.rel x false)) hops
    hact (by rw [hrdy]; exact hr) hdead
  exact ⟨hdead, hact, hrdy, hafter.1, hafter.2.1⟩

/-- A concrete pool history: `x1` is active alongside `a2`, one sandbox is
ready; after `x1` is released with `reuse = false`, the pool acquires the
ready sandbox, a replenished sandbox arrives, `a2` is released and an
on-demand sandbox is acquired — and `x1` never reappears. -/
def poolS : PoolState := { ready := ["r1"], active := ["x1", "a2"], dead := [] }

def poolOps : List PoolOp :=
  [.acqReady, .replenish "n1", .rel "a2" false, .acqDemand "n2"]

/-- Witness for C5 at the concrete pool history. -/
theorem release_destroy_no_reentry_witness :
    "x1" ∈ (poolStep poolS (.rel "x1" false)).dead ∧
    "x1" ∉ (poolRun (poolStep poolS (.rel "x1" false)) poolOps).active ∧
    "x1" ∉ (poolRun (poolStep poolS (.rel "x1" false)) poolOps).ready := by
  have h := release_destroy_no_reentry poolS "x1" poolOps (by decide) (by decide)
  exact ⟨h.1, h.2.2.2.1, h.2.2.2.2⟩

end Minion
